import Mathlib

/-!
Shallow embedding of the sen5x-rs driver crate (sources: `src/msg.rs`,
`src/cmd.rs`, `src/lib.rs`, `src/asynchronous.rs`).

Machine bytes (`u8`) are modelled as `Nat`, with `% 256` applied exactly
where the Rust `u8` arithmetic wraps.  Fixed-size Rust arrays `[u8; N]`
become `List Nat` together with a length hypothesis where a theorem
needs it.  Fallible code returns `Except`; Rust code paths that can
panic (out-of-bounds indexing) are modelled with an outer `Option`,
where `none` means the code panics.
-/

set_option maxRecDepth 10000

/-- One shift round of the Sensirion CRC-8 (polynomial 0x31): the body
of the inner loop of `sensirion_i2c::crc8::calculate`. -/
def crc8Round (c : Nat) : Nat :=
  if c % 256 ≥ 128 then (((c % 256) * 2) % 256) ^^^ 0x31 else ((c % 256) * 2) % 256

/-- Folding one byte into the CRC state: xor the byte in, then run eight
shift rounds. -/
def crc8Update (c b : Nat) : Nat :=
  Nat.iterate crc8Round 8 ((c ^^^ b) % 256)

/-- `sensirion_i2c::crc8::calculate`: CRC-8, polynomial 0x31, initial
value 0xFF, over the given bytes. -/
def crc8 (data : List Nat) : Nat :=
  data.foldl crc8Update 0xFF

/-- `DecodeError` from `src/msg.rs`.  The Rust `MessageError` payload is
a `&'static str` only under the `fmt` feature and its `PartialEq`
ignores it, so it carries no equational content and is dropped here. -/
inductive DecodeError where
  | Crc
  | Msg
  deriving DecidableEq, Repr

instance {ε α : Type} [DecidableEq ε] [DecidableEq α] : DecidableEq (Except ε α) := fun x y =>
  match x, y with
  | .ok a, .ok b =>
    if h : a = b then .isTrue (by rw [h]) else .isFalse (by simp [h])
  | .ok _, .error _ => .isFalse (by simp)
  | .error _, .ok _ => .isFalse (by simp)
  | .error a, .error b =>
    if h : a = b then .isTrue (by rw [h]) else .isFalse (by simp [h])

/-- Big-endian `u16` read of two adjacent buffer bytes, as in
`<u16>::from_be_bytes([buf[i], buf[i+1]])`. -/
def be16 (buf : List Nat) (i : Nat) : Nat :=
  256 * buf.getD i 0 + buf.getD (i + 1) 0

/-- The value of `<i16>::from_be_bytes` on the same two bytes, as a
mathematical integer. -/
def i16FromBe (v : Nat) : Int :=
  if v < 32768 then (v : Int) else (v : Int) - 65536

/-- The checksum test performed by the `word!` macro for the group at
byte offset `i`: the third byte of the group equals the CRC-8 of the
first two. -/
def wordOk (buf : List Nat) (i : Nat) : Prop :=
  crc8 [buf.getD i 0, buf.getD (i + 1) 0] = buf.getD (i + 2) 0

instance (buf : List Nat) (i : Nat) : Decidable (wordOk buf i) := by
  unfold wordOk; infer_instance

/-- The `word!` macro of `src/msg.rs` at type `u16`: verify the group
checksum, then map `u16::MAX` to `None` and any other value to `Some`. -/
def wordU (buf : List Nat) (i : Nat) : Except DecodeError (Option Nat) :=
  if crc8 [buf.getD i 0, buf.getD (i + 1) 0] = buf.getD (i + 2) 0 then
    if be16 buf i = 65535 then .ok none else .ok (some (be16 buf i))
  else .error .Crc

/-- The `word!` macro of `src/msg.rs` at type `i16`: verify the group
checksum, then map `i16::MAX` (wire value 0x7FFF) to `None` and any
other value to `Some` of its signed interpretation. -/
def wordI (buf : List Nat) (i : Nat) : Except DecodeError (Option Int) :=
  if crc8 [buf.getD i 0, buf.getD (i + 1) 0] = buf.getD (i + 2) 0 then
    if be16 buf i = 32767 then .ok none else .ok (some (i16FromBe (be16 buf i)))
  else .error .Crc

/-- `Measurements` from `src/msg.rs`: the raw (unscaled) decoded fields. -/
structure Measurements where
  pm1_0 : Option Nat
  pm2_5 : Option Nat
  pm4_0 : Option Nat
  pm10_0 : Option Nat
  rh : Option Int
  temp : Option Int
  voc : Option Int
  nox : Option Int
  deriving DecidableEq, Repr

/-- `Measurements::decode` (`impl Decode for Measurements`), on a
24-byte buffer: eight `word!` groups at byte offsets 0,3,…,21, the
first four unsigned, the last four signed. -/
def Measurements.decode (buf : List Nat) : Except DecodeError Measurements := do
  let pm1_0 ← wordU buf 0
  let pm2_5 ← wordU buf 3
  let pm4_0 ← wordU buf 6
  let pm10_0 ← wordU buf 9
  let rh ← wordI buf 12
  let temp ← wordI buf 15
  let voc ← wordI buf 18
  let nox ← wordI buf 21
  return ⟨pm1_0, pm2_5, pm4_0, pm10_0, rh, temp, voc, nox⟩

/-- `RawSignals` from `src/msg.rs`: the raw decoded fields. -/
structure RawSignals where
  humidity : Option Int
  temp : Option Int
  voc : Option Nat
  nox : Option Nat
  deriving DecidableEq, Repr

/-- `RawSignals::decode` (`impl Decode for RawSignals`), on a 12-byte
buffer: four `word!` groups, the first two signed, the last two
unsigned. -/
def RawSignals.decode (buf : List Nat) : Except DecodeError RawSignals := do
  let humidity ← wordI buf 0
  let temp ← wordI buf 3
  let voc ← wordU buf 6
  let nox ← wordU buf 9
  return ⟨humidity, temp, voc, nox⟩

/-- `DataReady::decode` (`impl Decode for DataReady`) on a 3-byte
buffer: checksum first, then the first byte must be 0, then the second
byte must be 0 or 1. -/
def DataReady.decode (buf : List Nat) : Except DecodeError Bool :=
  if crc8 [buf.getD 0 0, buf.getD 1 0] ≠ buf.getD 2 0 then .error .Crc
  else if buf.getD 0 0 ≠ 0 then .error .Msg
  else if buf.getD 1 0 = 0 then .ok false
  else if buf.getD 1 0 = 1 then .ok true
  else .error .Msg

/-- `RawString` from `src/msg.rs`: `data` models `bytes[..len]`, the
collected characters of the fixed 32-byte backing array. -/
structure RawString where
  data : List Nat
  deriving DecidableEq, Repr

/-- `RawString::push_char`.  Returns `none` where the Rust code panics:
writing `self.bytes[self.len]` with `len ≥ 32` is out of bounds.
`c.is_ascii()` is `c ≤ 0x7F`. -/
def RawString.push_char (r : RawString) (c : Nat) :
    Option (Except DecodeError (RawString × Bool)) :=
  if ¬ c < 128 then some (.error .Msg)
  else if c = 0 then some (.ok (r, true))
  else if r.data.length ≥ 32 then none
  else some (.ok (⟨r.data ++ [c]⟩, false))

/-- `buf.chunks(3)`: split a byte list into chunks of 3, the last chunk
possibly shorter. -/
def chunks3 : List Nat → List (List Nat)
  | [] => []
  | [a] => [[a]]
  | [a, b] => [[a, b]]
  | a :: b :: c :: rest => [a, b, c] :: chunks3 rest

/-- The loop body of `RawString::decode` over the chunk list.  `none`
models a panic: indexing `chunk[2]` (or slicing `chunk[..2]`) on a
chunk shorter than 3 bytes, or an out-of-bounds `push_char` write. -/
def RawString.decodeGroups :
    List (List Nat) → RawString → Option (Except DecodeError RawString)
  | [], r => some (.ok r)
  | chunk :: rest, r =>
    if chunk.length < 2 then none
    else if chunk.length < 3 then none
    else if crc8 [chunk.getD 0 0, chunk.getD 1 0] ≠ chunk.getD 2 0 then
      some (.error .Crc)
    else
      match r.push_char (chunk.getD 0 0) with
      | none => none
      | some (.error e) => some (.error e)
      | some (.ok (r, true)) => some (.ok r)
      | some (.ok (r, false)) =>
        match r.push_char (chunk.getD 1 0) with
        | none => none
        | some (.error e) => some (.error e)
        | some (.ok (r, true)) => some (.ok r)
        | some (.ok (r, false)) => RawString.decodeGroups rest r

/-- `RawString::decode` (`impl Decode for RawString`, `Buf = [u8; 47]`):
iterate over `buf.chunks(3)` starting from the empty string. -/
def RawString.decode (buf : List Nat) : Option (Except DecodeError RawString) :=
  RawString.decodeGroups (chunks3 buf) ⟨[]⟩

/-- `RawString::as_str`: UTF-8 view of `bytes[..len]`.  The collected
bytes are ASCII whenever they came from `push_char`, in which case the
UTF-8 decoding is the identity on code points. -/
def RawString.as_str (r : RawString) : String :=
  if r.data.all (· < 128) then String.mk (r.data.map Char.ofNat)
  else "<invalid utf-8>"

/-- `u16::to_be_bytes` of a value below 0x10000. -/
def u16ToBeBytes (v : Nat) : List Nat :=
  [v / 256 % 256, v % 256]

/-- Modelled from the spec: the `Encode` implementation for `u16` is
referenced by `src/asynchronous.rs` but its definition is not among the
given sources.  Spec §6: "Parameterized write frame: 2-byte opcode +
2-byte big-endian argument + 1 checksum byte over the argument (5 bytes
total)", so the encoding of the argument is its two big-endian bytes
followed by their CRC-8. -/
def u16Encode (v : Nat) : List Nat :=
  u16ToBeBytes v ++ [crc8 (u16ToBeBytes v)]

/-- Modelled from the spec: the `Decode` implementation for `u16`
(the warm-start parameter read response, `Buf = [u8; 3]`) is referenced
by `src/cmd.rs` but not among the given sources.  Spec §6: a response
frame group is 2 big-endian data bytes + 1 checksum byte, and §8's
round-trip property recovers the exact argument, so the decoder
validates the checksum and returns the big-endian value. -/
def u16Decode (buf : List Nat) : Except DecodeError Nat :=
  if crc8 [buf.getD 0 0, buf.getD 1 0] ≠ buf.getD 2 0 then .error .Crc
  else .ok (be16 buf 0)

/-- A read command descriptor from `src/cmd.rs`: the `WriteCommand`
constants (`COMMAND`, `EXECUTION_MS`) plus the `ReadCommand` response
buffer length and decoder.  The decoder returns `none` where the Rust
decoder panics. -/
structure ReadCmdSpec (α : Type) where
  COMMAND : List Nat
  EXECUTION_MS : Nat
  RSP_LEN : Nat
  decodeFn : List Nat → Option (Except DecodeError α)

/-- A write-only command descriptor from `src/cmd.rs`. -/
structure WriteCmdSpec where
  COMMAND : List Nat
  EXECUTION_MS : Nat

def ReadDataReady : ReadCmdSpec Bool :=
  ⟨u16ToBeBytes 0x0202, 20, 3, fun b => some (DataReady.decode b)⟩

def ReadMeasurement : ReadCmdSpec Measurements :=
  ⟨u16ToBeBytes 0x03C4, 20, 24, fun b => some (Measurements.decode b)⟩

def ReadRawSignals : ReadCmdSpec RawSignals :=
  ⟨u16ToBeBytes 0x03D2, 20, 12, fun b => some (RawSignals.decode b)⟩

def ReadProductName : ReadCmdSpec RawString :=
  ⟨u16ToBeBytes 0xD014, 20, 47, RawString.decode⟩

def ReadSerialNumber : ReadCmdSpec RawString :=
  ⟨u16ToBeBytes 0xD033, 20, 47, RawString.decode⟩

def WarmStartParameter : ReadCmdSpec Nat :=
  ⟨u16ToBeBytes 0x60C6, 20, 3, fun b => some (u16Decode b)⟩

/-- `impl WriteDataCommand for WarmStartParameter`: request buffer
`[u8; 5]`, filled with the opcode followed by the encoded argument. -/
def WarmStartParameterWrite : WriteCmdSpec :=
  ⟨u16ToBeBytes 0x60C6, 20⟩

/-- `REQ_BUF` length of the `WriteDataCommand` impl for
`WarmStartParameter`. -/
def WarmStartParameterREQ_LEN : Nat := 5

def StartMeasurement : WriteCmdSpec := ⟨u16ToBeBytes 0x0021, 50⟩

def StartMeasurementNoParticulates : WriteCmdSpec := ⟨u16ToBeBytes 0x0037, 50⟩

def StopMeasurement : WriteCmdSpec := ⟨u16ToBeBytes 0x0104, 200⟩

def StartFanCleaning : WriteCmdSpec := ⟨u16ToBeBytes 0x5607, 20⟩

def Reset : WriteCmdSpec := ⟨u16ToBeBytes 0xD304, 100⟩

/-- `Mode` from `src/lib.rs`. -/
inductive Mode where
  | Idle
  | Measuring
  deriving DecidableEq, Repr

/-- `ParticulateMode` from `src/lib.rs`. -/
inductive ParticulateMode where
  | Enabled
  | Disabled
  deriving DecidableEq, Repr

/-- `Error<E>` from `src/lib.rs`. -/
inductive Error (ε : Type) where
  | I2cWrite (e : ε)
  | I2cRead (e : ε)
  | Decode (d : DecodeError)
  | WrongMode (m : Mode)
  deriving DecidableEq, Repr

/-- `Mode::check` from `src/lib.rs`. -/
def Mode.check {ε : Type} (self expected : Mode) : Except (Error ε) Unit :=
  if self = expected then .ok () else .error (.WrongMode expected)

/-- One observable action on the bus/delay collaborators: an I²C write
of the given bytes, an I²C read of the given length, or a millisecond
delay.  Driver operations return the list of actions they performed, in
order, so that "performs no bus activity" is the empty trace. -/
inductive BusEvent where
  | write (addr : Nat) (bytes : List Nat)
  | read (addr : Nat) (len : Nat)
  | delayMs (ms : Nat)
  deriving DecidableEq, Repr

/-- The behaviour of the `embedded_hal_async::i2c::I2c` collaborator:
what each write attempt and each read attempt returns.  A read returns
the bytes placed into the driver's response buffer. -/
structure I2cBus (ε : Type) where
  writeFn : Nat → List Nat → Except ε Unit
  readFn : Nat → Nat → Except ε (List Nat)

/-- The driver state of `AsyncSen5x` (`src/asynchronous.rs`): the `i2c`
handle is externalised into the `I2cBus` behaviour passed to each
operation. -/
structure AsyncSen5x where
  mode : Mode
  particulates : ParticulateMode
  addr : Nat
  deriving DecidableEq, Repr

/-- `I2C_ADDR` from `src/lib.rs`. -/
def I2C_ADDR : Nat := 0x69

/-- `AsyncSen5x::new`. -/
def AsyncSen5x.new : AsyncSen5x :=
  { mode := .Idle, particulates := .Enabled, addr := I2C_ADDR }

/-- `AsyncSen5x::write_command`: write the opcode, then delay for the
command's execution time.  Returns the result and the trace of bus
actions; the driver state is untouched by this helper. -/
def AsyncSen5x.write_command {ε : Type} (bus : I2cBus ε) (s : AsyncSen5x)
    (c : WriteCmdSpec) : Except (Error ε) Unit × List BusEvent :=
  match bus.writeFn s.addr c.COMMAND with
  | .error e => (.error (.I2cWrite e), [.write s.addr c.COMMAND])
  | .ok _ => (.ok (), [.write s.addr c.COMMAND, .delayMs c.EXECUTION_MS])

/-- `AsyncSen5x::read_command`: `write_command`, then read the response
buffer, then decode it.  `none` models a panic inside the decoder. -/
def AsyncSen5x.read_command {ε α : Type} (bus : I2cBus ε) (s : AsyncSen5x)
    (c : ReadCmdSpec α) : Option (Except (Error ε) α × List BusEvent) :=
  match AsyncSen5x.write_command bus s ⟨c.COMMAND, c.EXECUTION_MS⟩ with
  | (.error e, evs) => some (.error e, evs)
  | (.ok _, evs) =>
    match bus.readFn s.addr c.RSP_LEN with
    | .error e => some (.error (.I2cRead e), evs ++ [.read s.addr c.RSP_LEN])
    | .ok buf =>
      match c.decodeFn buf with
      | none => none
      | some (.error d) => some (.error (.Decode d), evs ++ [.read s.addr c.RSP_LEN])
      | some (.ok v) => some (.ok v, evs ++ [.read s.addr c.RSP_LEN])

/-- `AsyncSen5x::write_data_command`: fill the request buffer with the
opcode followed by the encoded argument, write it, then delay. -/
def AsyncSen5x.write_data_command {ε : Type} (bus : I2cBus ε) (s : AsyncSen5x)
    (c : WriteCmdSpec) (data : Nat) : Except (Error ε) Unit × List BusEvent :=
  let buf := c.COMMAND ++ u16Encode data
  match bus.writeFn s.addr buf with
  | .error e => (.error (.I2cWrite e), [.write s.addr buf])
  | .ok _ => (.ok (), [.write s.addr buf, .delayMs c.EXECUTION_MS])

/-- `AsyncSen5x::data_ready`. -/
def AsyncSen5x.data_ready {ε : Type} (bus : I2cBus ε) (s : AsyncSen5x) :
    Option (Except (Error ε) Bool × AsyncSen5x × List BusEvent) :=
  match AsyncSen5x.read_command bus s ReadDataReady with
  | none => none
  | some (r, evs) => some (r, s, evs)

/-- `AsyncSen5x::start_measurement`: pick the opcode variant for the
requested particulate mode; on a successful write, set the mode to
`Measuring` and record the particulate mode. -/
def AsyncSen5x.start_measurement {ε : Type} (bus : I2cBus ε)
    (particulates : ParticulateMode) (s : AsyncSen5x) :
    Except (Error ε) Unit × AsyncSen5x × List BusEvent :=
  let c := match particulates with
    | .Enabled => StartMeasurement
    | .Disabled => StartMeasurementNoParticulates
  match AsyncSen5x.write_command bus s c with
  | (.error e, evs) => (.error e, s, evs)
  | (.ok _, evs) =>
    (.ok (), { s with mode := .Measuring, particulates := particulates }, evs)

/-- `AsyncSen5x::stop_measurement`: on a successful write, set the mode
to `Idle`. -/
def AsyncSen5x.stop_measurement {ε : Type} (bus : I2cBus ε) (s : AsyncSen5x) :
    Except (Error ε) Unit × AsyncSen5x × List BusEvent :=
  match AsyncSen5x.write_command bus s StopMeasurement with
  | (.error e, evs) => (.error e, s, evs)
  | (.ok _, evs) => (.ok (), { s with mode := .Idle }, evs)

/-- `AsyncSen5x::reset`: on a successful write, set the mode to `Idle`. -/
def AsyncSen5x.reset {ε : Type} (bus : I2cBus ε) (s : AsyncSen5x) :
    Except (Error ε) Unit × AsyncSen5x × List BusEvent :=
  match AsyncSen5x.write_command bus s Reset with
  | (.error e, evs) => (.error e, s, evs)
  | (.ok _, evs) => (.ok (), { s with mode := .Idle }, evs)

/-- `AsyncSen5x::read_warm_start_parameter` (no mode check). -/
def AsyncSen5x.read_warm_start_parameter {ε : Type} (bus : I2cBus ε)
    (s : AsyncSen5x) :
    Option (Except (Error ε) Nat × AsyncSen5x × List BusEvent) :=
  match AsyncSen5x.read_command bus s WarmStartParameter with
  | none => none
  | some (r, evs) => some (r, s, evs)

/-- `AsyncSen5x::set_warm_start_parameter`: requires `Idle`, then
issues the parameterized write. -/
def AsyncSen5x.set_warm_start_parameter {ε : Type} (bus : I2cBus ε)
    (param : Nat) (s : AsyncSen5x) :
    Except (Error ε) Unit × AsyncSen5x × List BusEvent :=
  match Mode.check (ε := ε) s.mode .Idle with
  | .error e => (.error e, s, [])
  | .ok _ =>
    match AsyncSen5x.write_data_command bus s WarmStartParameterWrite param with
    | (r, evs) => (r, s, evs)

/-- `AsyncSen5x::read_measurements`: requires `Measuring`. -/
def AsyncSen5x.read_measurements {ε : Type} (bus : I2cBus ε) (s : AsyncSen5x) :
    Option (Except (Error ε) Measurements × AsyncSen5x × List BusEvent) :=
  match Mode.check (ε := ε) s.mode .Measuring with
  | .error e => some (.error e, s, [])
  | .ok _ =>
    match AsyncSen5x.read_command bus s ReadMeasurement with
    | none => none
    | some (r, evs) => some (r, s, evs)

/-- `AsyncSen5x::read_raw_signals`: requires `Measuring`. -/
def AsyncSen5x.read_raw_signals {ε : Type} (bus : I2cBus ε) (s : AsyncSen5x) :
    Option (Except (Error ε) RawSignals × AsyncSen5x × List BusEvent) :=
  match Mode.check (ε := ε) s.mode .Measuring with
  | .error e => some (.error e, s, [])
  | .ok _ =>
    match AsyncSen5x.read_command bus s ReadRawSignals with
    | none => none
    | some (r, evs) => some (r, s, evs)

/-- `AsyncSen5x::start_fan_cleaning`: requires `Measuring`, then a
plain command write; the mode is not changed. -/
def AsyncSen5x.start_fan_cleaning {ε : Type} (bus : I2cBus ε) (s : AsyncSen5x) :
    Except (Error ε) Unit × AsyncSen5x × List BusEvent :=
  match Mode.check (ε := ε) s.mode .Measuring with
  | .error e => (.error e, s, [])
  | .ok _ =>
    match AsyncSen5x.write_command bus s StartFanCleaning with
    | (r, evs) => (r, s, evs)

/-- `AsyncSen5x::read_product_name` (no mode check). -/
def AsyncSen5x.read_product_name {ε : Type} (bus : I2cBus ε) (s : AsyncSen5x) :
    Option (Except (Error ε) RawString × AsyncSen5x × List BusEvent) :=
  match AsyncSen5x.read_command bus s ReadProductName with
  | none => none
  | some (r, evs) => some (r, s, evs)

/-! ## Concrete buffers and bus behaviours used as witnesses -/

/-- A well-formed checksum group: two data bytes followed by their CRC-8. -/
def goodGroup (b0 b1 : Nat) : List Nat := [b0, b1, crc8 [b0, b1]]

/-- A 24-byte measurement buffer in which every group validates. -/
def mbuf24 : List Nat :=
  goodGroup 0 0 ++ goodGroup 0 1 ++ goodGroup 0 2 ++ goodGroup 0 3 ++
    goodGroup 0 4 ++ goodGroup 0 5 ++ goodGroup 0 6 ++ goodGroup 0 7

/-- A 12-byte raw-signals buffer whose second group has a corrupted
checksum byte (the other groups validate). -/
def rbufBad12 : List Nat :=
  goodGroup 0 0 ++ [0, 1, (crc8 [0, 1] + 1) % 256] ++ goodGroup 0 2 ++ goodGroup 0 3

/-- A 12-byte raw-signals buffer in which every group validates. -/
def rbuf12 : List Nat :=
  goodGroup 0 10 ++ goodGroup 0 11 ++ goodGroup 0 12 ++ goodGroup 0 13

/-- A 24-byte buffer whose every group is `FF FF` plus a valid CRC:
every word has the all-bits-set wire value 0xFFFF. -/
def allOnesBuf24 : List Nat :=
  goodGroup 255 255 ++ goodGroup 255 255 ++ goodGroup 255 255 ++ goodGroup 255 255 ++
    goodGroup 255 255 ++ goodGroup 255 255 ++ goodGroup 255 255 ++ goodGroup 255 255

/-- A 47-byte product-name buffer encoding `"SEN55"` followed by a NUL
terminator, with valid checksums up to and including the terminating
group; everything after the terminating group is zero filler. -/
def sen55Buf : List Nat :=
  goodGroup 83 69 ++ goodGroup 78 53 ++ goodGroup 53 0 ++ List.replicate 38 0

/-- A 47-byte buffer with fifteen valid non-NUL ASCII groups followed by
the two leftover bytes `[65, 66]`: the decode loop reaches the final
2-byte chunk. -/
def noNulBuf47 : List Nat :=
  (List.replicate 15 (goodGroup 65 66)).flatten ++ [65, 66]

/-- A bus whose writes succeed and whose reads return the data-ready
response `[0x00, 0x01, crc]`. -/
def busReadyTrue : I2cBus Unit :=
  ⟨fun _ _ => .ok (), fun _ _ => .ok [0, 1, crc8 [0, 1]]⟩

/-- A bus whose writes succeed and whose reads return the malformed
data-ready response `[0x00, 0x02, crc]`. -/
def busReadyTwo : I2cBus Unit :=
  ⟨fun _ _ => .ok (), fun _ _ => .ok [0, 2, crc8 [0, 2]]⟩

/-- A bus whose writes fail. -/
def busWriteFail : I2cBus Unit :=
  ⟨fun _ _ => .error (), fun _ _ => .ok []⟩

/-- A driver state in `Measuring` mode. -/
def sMeasuring : AsyncSen5x := { AsyncSen5x.new with mode := .Measuring }

/-- The decoded value of `mbuf24`. -/
def m24val : Measurements :=
  ⟨some 0, some 1, some 2, some 3, some 4, some 5, some 6, some 7⟩

/-- The decoded value of `rbuf12`. -/
def r12val : RawSignals := ⟨some 10, some 11, some 12, some 13⟩

/-- The decoded value of `allOnesBuf24`: unsigned fields absent, signed
fields present with value -1. -/
def mAllOnes : Measurements :=
  ⟨none, none, none, none, some (-1), some (-1), some (-1), some (-1)⟩

/-- The wire bytes of a list of data-byte pairs, each completed with
its valid CRC-8 byte. -/
def goodGroups (pre : List (Nat × Nat)) : List Nat :=
  pre.flatMap fun p => goodGroup p.1 p.2

/-- The data bytes of a list of pairs, without the checksum bytes: the
characters a string decode collects from those groups. -/
def collectData (pre : List (Nat × Nat)) : List Nat :=
  pre.flatMap fun p => [p.1, p.2]

/-! ## Helper lemmas -/

theorem exceptBind_ok {ε α β : Type} (a : α) (f : α → Except ε β) :
    (Except.ok a : Except ε α) >>= f = f a := rfl

theorem exceptBind_err {ε α β : Type} (e : ε) (f : α → Except ε β) :
    (Except.error e : Except ε α) >>= f = .error e := rfl

theorem wordU_err (buf : List Nat) (i : Nat) (h : ¬ wordOk buf i) :
    wordU buf i = .error .Crc := by
  unfold wordU wordOk at *
  rw [if_neg h]

theorem wordU_ok (buf : List Nat) (i : Nat) (h : wordOk buf i) :
    wordU buf i = .ok (if be16 buf i = 65535 then none else some (be16 buf i)) := by
  unfold wordU wordOk at *
  rw [if_pos h]
  split <;> simp_all

theorem wordI_err (buf : List Nat) (i : Nat) (h : ¬ wordOk buf i) :
    wordI buf i = .error .Crc := by
  unfold wordI wordOk at *
  rw [if_neg h]

theorem wordI_ok (buf : List Nat) (i : Nat) (h : wordOk buf i) :
    wordI buf i = .ok (if be16 buf i = 32767 then none
      else some (i16FromBe (be16 buf i))) := by
  unfold wordI wordOk at *
  rw [if_pos h]
  split <;> simp_all

/-- Full characterization of `Measurements::decode`: it succeeds exactly
when all eight checksum groups validate, and then each field is the
big-endian word with its sentinel mapped to `none`. -/
theorem measurements_decode_eq (buf : List Nat) :
    Measurements.decode buf =
      if wordOk buf 0 ∧ wordOk buf 3 ∧ wordOk buf 6 ∧ wordOk buf 9 ∧
          wordOk buf 12 ∧ wordOk buf 15 ∧ wordOk buf 18 ∧ wordOk buf 21 then
        .ok ⟨(if be16 buf 0 = 65535 then none else some (be16 buf 0)),
             (if be16 buf 3 = 65535 then none else some (be16 buf 3)),
             (if be16 buf 6 = 65535 then none else some (be16 buf 6)),
             (if be16 buf 9 = 65535 then none else some (be16 buf 9)),
             (if be16 buf 12 = 32767 then none else some (i16FromBe (be16 buf 12))),
             (if be16 buf 15 = 32767 then none else some (i16FromBe (be16 buf 15))),
             (if be16 buf 18 = 32767 then none else some (i16FromBe (be16 buf 18))),
             (if be16 buf 21 = 32767 then none else some (i16FromBe (be16 buf 21)))⟩
      else .error .Crc := by
  by_cases h0 : wordOk buf 0
  case neg =>
    rw [if_neg (fun hc => h0 hc.1)]
    simp [Measurements.decode, wordU_err _ _ h0, exceptBind_err]
  case pos =>
  by_cases h3 : wordOk buf 3
  case neg =>
    rw [if_neg (fun hc => h3 hc.2.1)]
    simp [Measurements.decode, wordU_ok _ _ h0, wordU_err _ _ h3, exceptBind_err,
      exceptBind_ok]
  case pos =>
  by_cases h6 : wordOk buf 6
  case neg =>
    rw [if_neg (fun hc => h6 hc.2.2.1)]
    simp [Measurements.decode, wordU_ok _ _ h0, wordU_ok _ _ h3, wordU_err _ _ h6,
      exceptBind_err, exceptBind_ok]
  case pos =>
  by_cases h9 : wordOk buf 9
  case neg =>
    rw [if_neg (fun hc => h9 hc.2.2.2.1)]
    simp [Measurements.decode, wordU_ok _ _ h0, wordU_ok _ _ h3, wordU_ok _ _ h6,
      wordU_err _ _ h9, exceptBind_err, exceptBind_ok]
  case pos =>
  by_cases h12 : wordOk buf 12
  case neg =>
    rw [if_neg (fun hc => h12 hc.2.2.2.2.1)]
    simp [Measurements.decode, wordU_ok _ _ h0, wordU_ok _ _ h3, wordU_ok _ _ h6,
      wordU_ok _ _ h9, wordI_err _ _ h12, exceptBind_err, exceptBind_ok]
  case pos =>
  by_cases h15 : wordOk buf 15
  case neg =>
    rw [if_neg (fun hc => h15 hc.2.2.2.2.2.1)]
    simp [Measurements.decode, wordU_ok _ _ h0, wordU_ok _ _ h3, wordU_ok _ _ h6,
      wordU_ok _ _ h9, wordI_ok _ _ h12, wordI_err _ _ h15, exceptBind_err,
      exceptBind_ok]
  case pos =>
  by_cases h18 : wordOk buf 18
  case neg =>
    rw [if_neg (fun hc => h18 hc.2.2.2.2.2.2.1)]
    simp [Measurements.decode, wordU_ok _ _ h0, wordU_ok _ _ h3, wordU_ok _ _ h6,
      wordU_ok _ _ h9, wordI_ok _ _ h12, wordI_ok _ _ h15, wordI_err _ _ h18,
      exceptBind_err, exceptBind_ok]
  case pos =>
  by_cases h21 : wordOk buf 21
  case neg =>
    rw [if_neg (fun hc => h21 hc.2.2.2.2.2.2.2)]
    simp [Measurements.decode, wordU_ok _ _ h0, wordU_ok _ _ h3, wordU_ok _ _ h6,
      wordU_ok _ _ h9, wordI_ok _ _ h12, wordI_ok _ _ h15, wordI_ok _ _ h18,
      wordI_err _ _ h21, exceptBind_err, exceptBind_ok]
  case pos =>
    rw [if_pos ⟨h0, h3, h6, h9, h12, h15, h18, h21⟩]
    simp [Measurements.decode, wordU_ok _ _ h0, wordU_ok _ _ h3, wordU_ok _ _ h6,
      wordU_ok _ _ h9, wordI_ok _ _ h12, wordI_ok _ _ h15, wordI_ok _ _ h18,
      wordI_ok _ _ h21, exceptBind_err, exceptBind_ok]

/-- Full characterization of `RawSignals::decode`, analogous to
`measurements_decode_eq` with four groups. -/
theorem rawSignals_decode_eq (buf : List Nat) :
    RawSignals.decode buf =
      if wordOk buf 0 ∧ wordOk buf 3 ∧ wordOk buf 6 ∧ wordOk buf 9 then
        .ok ⟨(if be16 buf 0 = 32767 then none else some (i16FromBe (be16 buf 0))),
             (if be16 buf 3 = 32767 then none else some (i16FromBe (be16 buf 3))),
             (if be16 buf 6 = 65535 then none else some (be16 buf 6)),
             (if be16 buf 9 = 65535 then none else some (be16 buf 9))⟩
      else .error .Crc := by
  by_cases h0 : wordOk buf 0
  case neg =>
    rw [if_neg (fun hc => h0 hc.1)]
    simp [RawSignals.decode, wordI_err _ _ h0, exceptBind_err]
  case pos =>
  by_cases h3 : wordOk buf 3
  case neg =>
    rw [if_neg (fun hc => h3 hc.2.1)]
    simp [RawSignals.decode, wordI_ok _ _ h0, wordI_err _ _ h3, exceptBind_err,
      exceptBind_ok]
  case pos =>
  by_cases h6 : wordOk buf 6
  case neg =>
    rw [if_neg (fun hc => h6 hc.2.2.1)]
    simp [RawSignals.decode, wordI_ok _ _ h0, wordI_ok _ _ h3, wordU_err _ _ h6,
      exceptBind_err, exceptBind_ok]
  case pos =>
  by_cases h9 : wordOk buf 9
  case neg =>
    rw [if_neg (fun hc => h9 hc.2.2.2)]
    simp [RawSignals.decode, wordI_ok _ _ h0, wordI_ok _ _ h3, wordU_ok _ _ h6,
      wordU_err _ _ h9, exceptBind_err, exceptBind_ok]
  case pos =>
    rw [if_pos ⟨h0, h3, h6, h9⟩]
    simp [RawSignals.decode, wordI_ok _ _ h0, wordI_ok _ _ h3, wordU_ok _ _ h6,
      wordU_ok _ _ h9, exceptBind_err, exceptBind_ok]

/-- `wordOk` only looks at the three bytes of its group. -/
theorem wordOk_congr (buf buf' : List Nat) (i : Nat)
    (h0 : buf'.getD i 0 = buf.getD i 0)
    (h1 : buf'.getD (i + 1) 0 = buf.getD (i + 1) 0)
    (h2 : buf'.getD (i + 2) 0 = buf.getD (i + 2) 0) :
    wordOk buf' i ↔ wordOk buf i := by
  unfold wordOk
  rw [h0, h1, h2]

/-- The eight-group bound as an explicit conjunction. -/
theorem ball8_iff (buf : List Nat) :
    (∀ k < 8, wordOk buf (3 * k)) ↔
      (wordOk buf 0 ∧ wordOk buf 3 ∧ wordOk buf 6 ∧ wordOk buf 9 ∧
        wordOk buf 12 ∧ wordOk buf 15 ∧ wordOk buf 18 ∧ wordOk buf 21) := by
  constructor
  · intro h
    exact ⟨h 0 (by omega), h 1 (by omega), h 2 (by omega), h 3 (by omega),
      h 4 (by omega), h 5 (by omega), h 6 (by omega), h 7 (by omega)⟩
  · rintro ⟨a0, a3, a6, a9, a12, a15, a18, a21⟩ k hk
    match k, hk with
    | 0, _ => exact a0
    | 1, _ => exact a3
    | 2, _ => exact a6
    | 3, _ => exact a9
    | 4, _ => exact a12
    | 5, _ => exact a15
    | 6, _ => exact a18
    | 7, _ => exact a21

/-- The four-group bound as an explicit conjunction. -/
theorem ball4_iff (buf : List Nat) :
    (∀ k < 4, wordOk buf (3 * k)) ↔
      (wordOk buf 0 ∧ wordOk buf 3 ∧ wordOk buf 6 ∧ wordOk buf 9) := by
  constructor
  · intro h
    exact ⟨h 0 (by omega), h 1 (by omega), h 2 (by omega), h 3 (by omega)⟩
  · rintro ⟨a0, a3, a6, a9⟩ k hk
    match k, hk with
    | 0, _ => exact a0
    | 1, _ => exact a3
    | 2, _ => exact a6
    | 3, _ => exact a9


/-! ## Claim theorems -/

/-- C1: for every 24-byte measurement buffer and every 12-byte
raw-signals buffer, decode returns Ok iff, for each 3-byte group, the
third byte equals the CRC-8 of the first two; any mismatching group (in
particular the first) forces the result `DecodeError.Crc`, and it does
so for every buffer that agrees up to the end of that group — later
groups are never inspected; the only Ok result carries all fields, so
no partially-populated value is produced. -/
theorem c1_decode_crc_gate :
    (∀ buf : List Nat, buf.length = 24 →
      ((∃ m, Measurements.decode buf = .ok m) ↔ ∀ k < 8, wordOk buf (3 * k)) ∧
      ((¬ ∀ k < 8, wordOk buf (3 * k)) → Measurements.decode buf = .error .Crc) ∧
      (∀ k < 8, ¬ wordOk buf (3 * k) →
        ∀ buf' : List Nat, (∀ i < 3 * (k + 1), buf'.getD i 0 = buf.getD i 0) →
          Measurements.decode buf' = .error .Crc)) ∧
    (∀ buf : List Nat, buf.length = 12 →
      ((∃ r, RawSignals.decode buf = .ok r) ↔ ∀ k < 4, wordOk buf (3 * k)) ∧
      ((¬ ∀ k < 4, wordOk buf (3 * k)) → RawSignals.decode buf = .error .Crc) ∧
      (∀ k < 4, ¬ wordOk buf (3 * k) →
        ∀ buf' : List Nat, (∀ i < 3 * (k + 1), buf'.getD i 0 = buf.getD i 0) →
          RawSignals.decode buf' = .error .Crc)) := by
  constructor
  · intro buf _
    refine ⟨?_, ?_, ?_⟩
    · rw [measurements_decode_eq, ball8_iff]
      constructor
      · rintro ⟨m, hm⟩
        by_contra hc
        rw [if_neg hc] at hm
        simp at hm
      · intro h
        rw [if_pos h]
        exact ⟨_, rfl⟩
    · intro h
      rw [ball8_iff] at h
      rw [measurements_decode_eq, if_neg h]
    · intro k hk hbad buf' hagree
      have hbad' : ¬ wordOk buf' (3 * k) := fun hw =>
        hbad ((wordOk_congr buf buf' (3 * k) (hagree _ (by omega)) (hagree _ (by omega))
          (hagree _ (by omega))).mp hw)
      rw [measurements_decode_eq, if_neg (fun hc => hbad' ((ball8_iff buf').mpr hc k hk))]
  · intro buf _
    refine ⟨?_, ?_, ?_⟩
    · rw [rawSignals_decode_eq, ball4_iff]
      constructor
      · rintro ⟨r, hr⟩
        by_contra hc
        rw [if_neg hc] at hr
        simp at hr
      · intro h
        rw [if_pos h]
        exact ⟨_, rfl⟩
    · intro h
      rw [ball4_iff] at h
      rw [rawSignals_decode_eq, if_neg h]
    · intro k hk hbad buf' hagree
      have hbad' : ¬ wordOk buf' (3 * k) := fun hw =>
        hbad ((wordOk_congr buf buf' (3 * k) (hagree _ (by omega)) (hagree _ (by omega))
          (hagree _ (by omega))).mp hw)
      rw [rawSignals_decode_eq, if_neg (fun hc => hbad' ((ball4_iff buf').mpr hc k hk))]

/-- Witness for C1 at concrete buffers: a fully valid 24-byte buffer
decodes Ok, and a 12-byte buffer with one corrupted checksum byte
decodes to the checksum error. -/
theorem c1_decode_crc_gate_witness :
    (∃ m, Measurements.decode mbuf24 = .ok m) ∧
      RawSignals.decode rbufBad12 = .error .Crc := by
  constructor
  · exact ((c1_decode_crc_gate.1 mbuf24 (by decide)).1).mpr (by decide)
  · exact (c1_decode_crc_gate.2 rbufBad12 (by decide)).2.1 (by decide)

/-- C3: in `Measurements::decode` and `RawSignals::decode`, whenever a
decode succeeds, each unsigned field is `none` exactly when its
big-endian wire word is 0xFFFF and otherwise `some` of exactly that
value, and each signed field is `none` exactly when its wire word is
0x7FFF (`i16::MAX`) and otherwise `some` of exactly its signed value —
all before any unit scaling. -/
theorem c3_sentinel_fields :
    (∀ (buf : List Nat) (m : Measurements), buf.length = 24 →
      Measurements.decode buf = .ok m →
      (be16 buf 0 = 65535 → m.pm1_0 = none) ∧
      (be16 buf 0 ≠ 65535 → m.pm1_0 = some (be16 buf 0)) ∧
      (be16 buf 3 = 65535 → m.pm2_5 = none) ∧
      (be16 buf 3 ≠ 65535 → m.pm2_5 = some (be16 buf 3)) ∧
      (be16 buf 6 = 65535 → m.pm4_0 = none) ∧
      (be16 buf 6 ≠ 65535 → m.pm4_0 = some (be16 buf 6)) ∧
      (be16 buf 9 = 65535 → m.pm10_0 = none) ∧
      (be16 buf 9 ≠ 65535 → m.pm10_0 = some (be16 buf 9)) ∧
      (be16 buf 12 = 32767 → m.rh = none) ∧
      (be16 buf 12 ≠ 32767 → m.rh = some (i16FromBe (be16 buf 12))) ∧
      (be16 buf 15 = 32767 → m.temp = none) ∧
      (be16 buf 15 ≠ 32767 → m.temp = some (i16FromBe (be16 buf 15))) ∧
      (be16 buf 18 = 32767 → m.voc = none) ∧
      (be16 buf 18 ≠ 32767 → m.voc = some (i16FromBe (be16 buf 18))) ∧
      (be16 buf 21 = 32767 → m.nox = none) ∧
      (be16 buf 21 ≠ 32767 → m.nox = some (i16FromBe (be16 buf 21)))) ∧
    (∀ (buf : List Nat) (r : RawSignals), buf.length = 12 →
      RawSignals.decode buf = .ok r →
      (be16 buf 0 = 32767 → r.humidity = none) ∧
      (be16 buf 0 ≠ 32767 → r.humidity = some (i16FromBe (be16 buf 0))) ∧
      (be16 buf 3 = 32767 → r.temp = none) ∧
      (be16 buf 3 ≠ 32767 → r.temp = some (i16FromBe (be16 buf 3))) ∧
      (be16 buf 6 = 65535 → r.voc = none) ∧
      (be16 buf 6 ≠ 65535 → r.voc = some (be16 buf 6)) ∧
      (be16 buf 9 = 65535 → r.nox = none) ∧
      (be16 buf 9 ≠ 65535 → r.nox = some (be16 buf 9))) := by
  constructor
  · intro buf m _ hd
    rw [measurements_decode_eq] at hd
    split at hd
    case isFalse => simp at hd
    case isTrue h =>
      rw [Except.ok.injEq] at hd
      subst hd
      refine ⟨?_, ?_, ?_, ?_, ?_, ?_, ?_, ?_, ?_, ?_, ?_, ?_, ?_, ?_, ?_, ?_⟩ <;>
        · intro hv
          simp [hv]
  · intro buf r _ hd
    rw [rawSignals_decode_eq] at hd
    split at hd
    case isFalse => simp at hd
    case isTrue h =>
      rw [Except.ok.injEq] at hd
      subst hd
      refine ⟨?_, ?_, ?_, ?_, ?_, ?_, ?_, ?_⟩ <;>
        · intro hv
          simp [hv]

/-- Witness for C3 at concrete buffers. -/
theorem c3_sentinel_fields_witness :
    m24val.pm1_0 = some (be16 mbuf24 0) ∧ r12val.voc = some (be16 rbuf12 6) := by
  constructor
  · exact (c3_sentinel_fields.1 mbuf24 m24val (by decide) (by decide)).2.1 (by decide)
  · exact (c3_sentinel_fields.2 rbuf12 r12val (by decide) (by decide)).2.2.2.2.2.1 (by decide)

/-- Counterexample for C4: in the 24-byte buffer whose every data word
is the all-bits-set value 0xFFFF (with valid checksums), the signed
fields decode to `some (-1)`, not to absent — the all-bits-set wire
representation is not the sentinel for the signed fields. -/
theorem c4_counterexample :
    Measurements.decode allOnesBuf24 = .ok mAllOnes ∧ mAllOnes.rh ≠ none := by
  exact ⟨by decide, by decide⟩

/-- C4 amended: for the unsigned fields the all-bits-set wire value
0xFFFF maps to absent before scaling; for the signed fields the
sentinel is 0x7FFF (`i16::MAX`), and the all-bits-set value 0xFFFF
decodes to present with value -1. -/
theorem c4_sentinel_amended :
    (∀ (buf : List Nat) (m : Measurements), buf.length = 24 →
      Measurements.decode buf = .ok m →
      (be16 buf 0 = 65535 → m.pm1_0 = none) ∧
      (be16 buf 3 = 65535 → m.pm2_5 = none) ∧
      (be16 buf 6 = 65535 → m.pm4_0 = none) ∧
      (be16 buf 9 = 65535 → m.pm10_0 = none) ∧
      (be16 buf 12 = 65535 → m.rh = some (-1)) ∧
      (be16 buf 12 = 32767 → m.rh = none) ∧
      (be16 buf 15 = 65535 → m.temp = some (-1)) ∧
      (be16 buf 15 = 32767 → m.temp = none) ∧
      (be16 buf 18 = 65535 → m.voc = some (-1)) ∧
      (be16 buf 18 = 32767 → m.voc = none) ∧
      (be16 buf 21 = 65535 → m.nox = some (-1)) ∧
      (be16 buf 21 = 32767 → m.nox = none)) ∧
    (∀ (buf : List Nat) (r : RawSignals), buf.length = 12 →
      RawSignals.decode buf = .ok r →
      (be16 buf 0 = 65535 → r.humidity = some (-1)) ∧
      (be16 buf 0 = 32767 → r.humidity = none) ∧
      (be16 buf 3 = 65535 → r.temp = some (-1)) ∧
      (be16 buf 3 = 32767 → r.temp = none) ∧
      (be16 buf 6 = 65535 → r.voc = none) ∧
      (be16 buf 9 = 65535 → r.nox = none)) := by
  constructor
  · intro buf m _ hd
    rw [measurements_decode_eq] at hd
    split at hd
    case isFalse => simp at hd
    case isTrue h =>
      rw [Except.ok.injEq] at hd
      subst hd
      refine ⟨?_, ?_, ?_, ?_, ?_, ?_, ?_, ?_, ?_, ?_, ?_, ?_⟩ <;>
        · intro hv
          simp [hv, i16FromBe]
  · intro buf r _ hd
    rw [rawSignals_decode_eq] at hd
    split at hd
    case isFalse => simp at hd
    case isTrue h =>
      rw [Except.ok.injEq] at hd
      subst hd
      refine ⟨?_, ?_, ?_, ?_, ?_, ?_⟩ <;>
        · intro hv
          simp [hv, i16FromBe]

/-- Witness for the amended C4 at the all-ones buffer. -/
theorem c4_sentinel_amended_witness :
    mAllOnes.rh = some (-1) ∧ mAllOnes.pm1_0 = none := by
  constructor
  · exact (c4_sentinel_amended.1 allOnesBuf24 mAllOnes (by decide)
      (by decide)).2.2.2.2.1 (by decide)
  · exact (c4_sentinel_amended.1 allOnesBuf24 mAllOnes (by decide)
      (by decide)).1 (by decide)

/-- C2: the command catalog reproduces the spec's
opcode/settling-time/length table exactly, with each opcode as two
big-endian bytes. -/
theorem c2_command_catalog :
    ReadDataReady.COMMAND = [0x02, 0x02] ∧ ReadDataReady.EXECUTION_MS = 20 ∧
    ReadDataReady.RSP_LEN = 3 ∧
    ReadMeasurement.COMMAND = [0x03, 0xC4] ∧ 20 ≤ ReadMeasurement.EXECUTION_MS ∧
    ReadMeasurement.EXECUTION_MS ≤ 50 ∧ ReadMeasurement.RSP_LEN = 24 ∧
    ReadRawSignals.COMMAND = [0x03, 0xD2] ∧ ReadRawSignals.EXECUTION_MS = 20 ∧
    ReadRawSignals.RSP_LEN = 12 ∧
    ReadProductName.COMMAND = [0xD0, 0x14] ∧ ReadProductName.EXECUTION_MS = 20 ∧
    ReadProductName.RSP_LEN = 47 ∧
    ReadSerialNumber.COMMAND = [0xD0, 0x33] ∧ ReadSerialNumber.EXECUTION_MS = 20 ∧
    ReadSerialNumber.RSP_LEN = 47 ∧
    WarmStartParameter.COMMAND = [0x60, 0xC6] ∧ WarmStartParameter.EXECUTION_MS = 20 ∧
    WarmStartParameter.RSP_LEN = 3 ∧
    WarmStartParameterWrite.COMMAND = [0x60, 0xC6] ∧
    WarmStartParameterWrite.EXECUTION_MS = 20 ∧ WarmStartParameterREQ_LEN = 5 ∧
    StartMeasurement.COMMAND = [0x00, 0x21] ∧ StartMeasurement.EXECUTION_MS = 50 ∧
    StartMeasurementNoParticulates.COMMAND = [0x00, 0x37] ∧
    StartMeasurementNoParticulates.EXECUTION_MS = 50 ∧
    StopMeasurement.COMMAND = [0x01, 0x04] ∧ StopMeasurement.EXECUTION_MS = 200 ∧
    StartFanCleaning.COMMAND = [0x56, 0x07] ∧ StartFanCleaning.EXECUTION_MS = 20 ∧
    Reset.COMMAND = [0xD3, 0x04] ∧ Reset.EXECUTION_MS = 100 := by
  decide

/-- C9: `DataReady::decode` checks the checksum first (a mismatch gives
the checksum error whatever the data bytes are), then rejects a nonzero
first byte, then accepts only 0 or 1 as second byte; through the driver,
the buffer `[0, 1, crc]` makes `data_ready` return `true` and
`[0, 2, crc]` a malformed-message decode error. -/
theorem c9_data_ready_decode :
    (∀ b0 b1 b2 : Nat, crc8 [b0, b1] ≠ b2 →
      DataReady.decode [b0, b1, b2] = .error .Crc) ∧
    (∀ b0 b1 : Nat, b0 ≠ 0 →
      DataReady.decode [b0, b1, crc8 [b0, b1]] = .error .Msg) ∧
    (∀ b1 : Nat, b1 ≠ 0 → b1 ≠ 1 →
      DataReady.decode [0, b1, crc8 [0, b1]] = .error .Msg) ∧
    DataReady.decode [0, 0, crc8 [0, 0]] = .ok false ∧
    DataReady.decode [0, 1, crc8 [0, 1]] = .ok true ∧
    AsyncSen5x.data_ready busReadyTrue AsyncSen5x.new =
      some (.ok true, AsyncSen5x.new,
        [.write 0x69 [0x02, 0x02], .delayMs 20, .read 0x69 3]) ∧
    AsyncSen5x.data_ready busReadyTwo AsyncSen5x.new =
      some (.error (.Decode .Msg), AsyncSen5x.new,
        [.write 0x69 [0x02, 0x02], .delayMs 20, .read 0x69 3]) := by
  refine ⟨?_, ?_, ?_, by decide, by decide, by decide, by decide⟩
  · intro b0 b1 b2 h
    simp [DataReady.decode, h]
  · intro b0 b1 h
    simp [DataReady.decode, h]
  · intro b1 h0 h1
    simp [DataReady.decode, h0, h1]

/-- Witness for C9 at concrete bytes. -/
theorem c9_data_ready_decode_witness :
    DataReady.decode [0, 0, (crc8 [0, 0] + 1) % 256] = .error .Crc ∧
    DataReady.decode [5, 0, crc8 [5, 0]] = .error .Msg ∧
    DataReady.decode [0, 2, crc8 [0, 2]] = .error .Msg := by
  refine ⟨c9_data_ready_decode.1 0 0 _ (by decide),
    c9_data_ready_decode.2.1 5 0 (by decide),
    c9_data_ready_decode.2.2.1 2 (by decide) (by decide)⟩

/-- A completed `read_command` never produces a `WrongMode` error: its
only error sources are the transport and the decoder. -/
theorem read_command_no_wrongmode {ε α : Type} (bus : I2cBus ε) (s : AsyncSen5x)
    (c : ReadCmdSpec α) (r : Except (Error ε) α) (evs : List BusEvent)
    (h : AsyncSen5x.read_command bus s c = some (r, evs)) :
    ∀ m, r ≠ .error (.WrongMode m) := by
  intro m
  rcases hw : bus.writeFn s.addr c.COMMAND with e | u
  · simp [AsyncSen5x.read_command, AsyncSen5x.write_command, hw] at h
    obtain ⟨h1, -⟩ := h
    subst h1
    simp
  · rcases hr : bus.readFn s.addr c.RSP_LEN with e | buf
    · simp [AsyncSen5x.read_command, AsyncSen5x.write_command, hw, hr] at h
      obtain ⟨h1, -⟩ := h
      subst h1
      simp
    · rcases hd : c.decodeFn buf with _ | d | v
      · simp [AsyncSen5x.read_command, AsyncSen5x.write_command, hw, hr, hd] at h
      · simp [AsyncSen5x.read_command, AsyncSen5x.write_command, hw, hr, hd] at h
        obtain ⟨h1, -⟩ := h
        subst h1
        simp
      · simp [AsyncSen5x.read_command, AsyncSen5x.write_command, hw, hr, hd] at h
        obtain ⟨h1, -⟩ := h
        subst h1
        simp

/-- When the decoder is total, `read_command` completes and its first
bus action is the opcode write. -/
theorem read_command_total_shape {ε α : Type} (bus : I2cBus ε) (s : AsyncSen5x)
    (c : ReadCmdSpec α) (htot : ∀ b, c.decodeFn b ≠ none) :
    ∃ r evs, AsyncSen5x.read_command bus s c = some (r, evs) ∧
      evs.head? = some (.write s.addr c.COMMAND) := by
  rcases hw : bus.writeFn s.addr c.COMMAND with e | u
  · refine ⟨.error (.I2cWrite e), [.write s.addr c.COMMAND], ?_, rfl⟩
    simp [AsyncSen5x.read_command, AsyncSen5x.write_command, hw]
  · rcases hr : bus.readFn s.addr c.RSP_LEN with e | buf
    · refine ⟨.error (.I2cRead e),
        [.write s.addr c.COMMAND, .delayMs c.EXECUTION_MS] ++ [.read s.addr c.RSP_LEN],
        ?_, by simp⟩
      simp [AsyncSen5x.read_command, AsyncSen5x.write_command, hw, hr]
    · rcases hd : c.decodeFn buf with _ | d | v
      · exact absurd hd (htot buf)
      · refine ⟨.error (.Decode d),
          [.write s.addr c.COMMAND, .delayMs c.EXECUTION_MS] ++ [.read s.addr c.RSP_LEN],
          ?_, by simp⟩
        simp [AsyncSen5x.read_command, AsyncSen5x.write_command, hw, hr, hd]
      · refine ⟨.ok v,
          [.write s.addr c.COMMAND, .delayMs c.EXECUTION_MS] ++ [.read s.addr c.RSP_LEN],
          ?_, by simp⟩
        simp [AsyncSen5x.read_command, AsyncSen5x.write_command, hw, hr, hd]

/-- C5: the driver is constructed in `Idle` mode; `start_measurement`
(either opcode variant) sets `Measuring` and records the particulate
mode only after its bus write succeeds, `stop_measurement` and `reset`
set `Idle` only after their bus write succeeds, and whenever the
transport write fails the operation returns the wrapped error with the
driver state exactly as before the call. -/
theorem c5_mode_lifecycle :
    AsyncSen5x.new.mode = Mode.Idle ∧
    AsyncSen5x.new.particulates = ParticulateMode.Enabled ∧
    ∀ (ε : Type) (bus : I2cBus ε) (s : AsyncSen5x),
      (bus.writeFn s.addr StartMeasurement.COMMAND = .ok () →
        AsyncSen5x.start_measurement bus .Enabled s =
          (.ok (), { s with mode := .Measuring, particulates := .Enabled },
            [.write s.addr StartMeasurement.COMMAND,
              .delayMs StartMeasurement.EXECUTION_MS])) ∧
      (∀ e, bus.writeFn s.addr StartMeasurement.COMMAND = .error e →
        AsyncSen5x.start_measurement bus .Enabled s =
          (.error (.I2cWrite e), s, [.write s.addr StartMeasurement.COMMAND])) ∧
      (bus.writeFn s.addr StartMeasurementNoParticulates.COMMAND = .ok () →
        AsyncSen5x.start_measurement bus .Disabled s =
          (.ok (), { s with mode := .Measuring, particulates := .Disabled },
            [.write s.addr StartMeasurementNoParticulates.COMMAND,
              .delayMs StartMeasurementNoParticulates.EXECUTION_MS])) ∧
      (∀ e, bus.writeFn s.addr StartMeasurementNoParticulates.COMMAND = .error e →
        AsyncSen5x.start_measurement bus .Disabled s =
          (.error (.I2cWrite e), s,
            [.write s.addr StartMeasurementNoParticulates.COMMAND])) ∧
      (bus.writeFn s.addr StopMeasurement.COMMAND = .ok () →
        AsyncSen5x.stop_measurement bus s =
          (.ok (), { s with mode := .Idle },
            [.write s.addr StopMeasurement.COMMAND,
              .delayMs StopMeasurement.EXECUTION_MS])) ∧
      (∀ e, bus.writeFn s.addr StopMeasurement.COMMAND = .error e →
        AsyncSen5x.stop_measurement bus s =
          (.error (.I2cWrite e), s, [.write s.addr StopMeasurement.COMMAND])) ∧
      (bus.writeFn s.addr Reset.COMMAND = .ok () →
        AsyncSen5x.reset bus s =
          (.ok (), { s with mode := .Idle },
            [.write s.addr Reset.COMMAND, .delayMs Reset.EXECUTION_MS])) ∧
      (∀ e, bus.writeFn s.addr Reset.COMMAND = .error e →
        AsyncSen5x.reset bus s =
          (.error (.I2cWrite e), s, [.write s.addr Reset.COMMAND])) := by
  refine ⟨rfl, rfl, ?_⟩
  intro ε bus s
  refine ⟨?_, ?_, ?_, ?_, ?_, ?_, ?_, ?_⟩
  · intro h
    simp [AsyncSen5x.start_measurement, AsyncSen5x.write_command, h]
  · intro e h
    simp [AsyncSen5x.start_measurement, AsyncSen5x.write_command, h]
  · intro h
    simp [AsyncSen5x.start_measurement, AsyncSen5x.write_command, h]
  · intro e h
    simp [AsyncSen5x.start_measurement, AsyncSen5x.write_command, h]
  · intro h
    simp [AsyncSen5x.stop_measurement, AsyncSen5x.write_command, h]
  · intro e h
    simp [AsyncSen5x.stop_measurement, AsyncSen5x.write_command, h]
  · intro h
    simp [AsyncSen5x.reset, AsyncSen5x.write_command, h]
  · intro e h
    simp [AsyncSen5x.reset, AsyncSen5x.write_command, h]

/-- Witness for C5: a successful start transitions to `Measuring`, a
failed stop leaves the fresh driver state untouched. -/
theorem c5_mode_lifecycle_witness :
    AsyncSen5x.start_measurement busReadyTrue .Enabled AsyncSen5x.new =
      (.ok (), { AsyncSen5x.new with mode := .Measuring, particulates := .Enabled },
        [.write I2C_ADDR StartMeasurement.COMMAND,
          .delayMs StartMeasurement.EXECUTION_MS]) ∧
    AsyncSen5x.stop_measurement busWriteFail AsyncSen5x.new =
      (.error (.I2cWrite ()), AsyncSen5x.new,
        [.write I2C_ADDR StopMeasurement.COMMAND]) := by
  constructor
  · exact (c5_mode_lifecycle.2.2 Unit busReadyTrue AsyncSen5x.new).1 rfl
  · exact (c5_mode_lifecycle.2.2 Unit busWriteFail AsyncSen5x.new).2.2.2.2.2.1 () rfl

/-- C6: when the driver mode differs from the required one,
`read_measurements`, `read_raw_signals`, `start_fan_cleaning` (which
require `Measuring`) and `set_warm_start_parameter` (which requires
`Idle`) return `WrongMode` carrying the required mode, with the state
unchanged and an empty bus trace — no I²C write, read, or delay; when
the mode matches, the guard passes and the bus transaction begins with
the opcode write. -/
theorem c6_mode_guard :
    ∀ (ε : Type) (bus : I2cBus ε) (s : AsyncSen5x),
      (s.mode ≠ .Measuring →
        AsyncSen5x.read_measurements bus s =
          some (.error (.WrongMode .Measuring), s, []) ∧
        AsyncSen5x.read_raw_signals bus s =
          some (.error (.WrongMode .Measuring), s, []) ∧
        AsyncSen5x.start_fan_cleaning bus s =
          (.error (.WrongMode .Measuring), s, [])) ∧
      (s.mode ≠ .Idle → ∀ param,
        AsyncSen5x.set_warm_start_parameter bus param s =
          (.error (.WrongMode .Idle), s, [])) ∧
      (s.mode = .Measuring →
        (∃ out, AsyncSen5x.read_measurements bus s = some out ∧
          out.2.2.head? = some (.write s.addr ReadMeasurement.COMMAND)) ∧
        (∃ out, AsyncSen5x.read_raw_signals bus s = some out ∧
          out.2.2.head? = some (.write s.addr ReadRawSignals.COMMAND)) ∧
        (AsyncSen5x.start_fan_cleaning bus s).2.2.head? =
          some (.write s.addr StartFanCleaning.COMMAND)) ∧
      (s.mode = .Idle → ∀ param,
        (AsyncSen5x.set_warm_start_parameter bus param s).2.2.head? =
          some (.write s.addr (WarmStartParameterWrite.COMMAND ++ u16Encode param))) := by
  intro ε bus s
  refine ⟨?_, ?_, ?_, ?_⟩
  · intro h
    refine ⟨?_, ?_, ?_⟩ <;>
      simp [AsyncSen5x.read_measurements, AsyncSen5x.read_raw_signals,
        AsyncSen5x.start_fan_cleaning, Mode.check, h]
  · intro h param
    simp [AsyncSen5x.set_warm_start_parameter, Mode.check, h]
  · intro h
    refine ⟨?_, ?_, ?_⟩
    · obtain ⟨r, evs, hrc, hhead⟩ :=
        read_command_total_shape bus s ReadMeasurement (fun b => by simp [ReadMeasurement])
      refine ⟨(r, s, evs), ?_, hhead⟩
      simp [AsyncSen5x.read_measurements, Mode.check, h, hrc]
    · obtain ⟨r, evs, hrc, hhead⟩ :=
        read_command_total_shape bus s ReadRawSignals (fun b => by simp [ReadRawSignals])
      refine ⟨(r, s, evs), ?_, hhead⟩
      simp [AsyncSen5x.read_raw_signals, Mode.check, h, hrc]
    · rcases hw : bus.writeFn s.addr StartFanCleaning.COMMAND with e | u <;>
        simp [AsyncSen5x.start_fan_cleaning, AsyncSen5x.write_command, Mode.check, h, hw]
  · intro h param
    rcases hw : bus.writeFn s.addr (WarmStartParameterWrite.COMMAND ++ u16Encode param)
        with e | u <;>
      simp [AsyncSen5x.set_warm_start_parameter, AsyncSen5x.write_data_command,
        Mode.check, h, hw]

/-- Witness for C6: the fresh (Idle) driver refuses `read_measurements`
with `WrongMode Measuring` and no bus traffic, while
`set_warm_start_parameter` proceeds to write its request frame. -/
theorem c6_mode_guard_witness :
    AsyncSen5x.read_measurements busReadyTrue AsyncSen5x.new =
      some (.error (.WrongMode .Measuring), AsyncSen5x.new, []) ∧
    (AsyncSen5x.set_warm_start_parameter busReadyTrue 7 AsyncSen5x.new).2.2.head? =
      some (.write AsyncSen5x.new.addr (WarmStartParameterWrite.COMMAND ++ u16Encode 7)) := by
  exact ⟨((c6_mode_guard Unit busReadyTrue AsyncSen5x.new).1 (by decide)).1,
    (c6_mode_guard Unit busReadyTrue AsyncSen5x.new).2.2.2 (by decide) 7⟩

/-- C10: `start_measurement`, `data_ready`, `read_warm_start_parameter`
and `read_product_name` perform no mode check and never return a
`WrongMode` error in any driver mode; in particular `start_measurement`
while already `Measuring` issues the start opcode on the bus again and,
on success, leaves the mode `Measuring` with the particulate mode
updated to the newly requested variant. -/
theorem c10_unguarded_ops :
    ∀ (ε : Type) (bus : I2cBus ε) (s : AsyncSen5x) (p : ParticulateMode),
      (∀ m, (AsyncSen5x.start_measurement bus p s).1 ≠ .error (.WrongMode m)) ∧
      (∀ out, AsyncSen5x.data_ready bus s = some out →
        ∀ m, out.1 ≠ .error (.WrongMode m)) ∧
      (∀ out, AsyncSen5x.read_warm_start_parameter bus s = some out →
        ∀ m, out.1 ≠ .error (.WrongMode m)) ∧
      (∀ out, AsyncSen5x.read_product_name bus s = some out →
        ∀ m, out.1 ≠ .error (.WrongMode m)) ∧
      (s.mode = .Measuring →
        (AsyncSen5x.start_measurement bus p s).2.2.head? =
          some (.write s.addr (match p with
            | .Enabled => StartMeasurement.COMMAND
            | .Disabled => StartMeasurementNoParticulates.COMMAND)) ∧
        ((AsyncSen5x.start_measurement bus p s).1 = .ok () →
          (AsyncSen5x.start_measurement bus p s).2.1 =
            { s with mode := .Measuring, particulates := p })) := by
  intro ε bus s p
  refine ⟨?_, ?_, ?_, ?_, ?_⟩
  · intro m
    rcases p <;>
      [rcases hw : bus.writeFn s.addr StartMeasurement.COMMAND with e | u;
       rcases hw : bus.writeFn s.addr StartMeasurementNoParticulates.COMMAND with e | u] <;>
      simp [AsyncSen5x.start_measurement, AsyncSen5x.write_command, hw]
  · intro out hout m
    rcases hrc : AsyncSen5x.read_command bus s ReadDataReady with _ | rv
    · simp [AsyncSen5x.data_ready, hrc] at hout
    · obtain ⟨r, evs⟩ := rv
      simp [AsyncSen5x.data_ready, hrc] at hout
      subst hout
      exact read_command_no_wrongmode bus s ReadDataReady r evs hrc m
  · intro out hout m
    rcases hrc : AsyncSen5x.read_command bus s WarmStartParameter with _ | rv
    · simp [AsyncSen5x.read_warm_start_parameter, hrc] at hout
    · obtain ⟨r, evs⟩ := rv
      simp [AsyncSen5x.read_warm_start_parameter, hrc] at hout
      subst hout
      exact read_command_no_wrongmode bus s WarmStartParameter r evs hrc m
  · intro out hout m
    rcases hrc : AsyncSen5x.read_command bus s ReadProductName with _ | rv
    · simp [AsyncSen5x.read_product_name, hrc] at hout
    · obtain ⟨r, evs⟩ := rv
      simp [AsyncSen5x.read_product_name, hrc] at hout
      subst hout
      exact read_command_no_wrongmode bus s ReadProductName r evs hrc m
  · intro _
    constructor
    · rcases p <;>
        [rcases hw : bus.writeFn s.addr StartMeasurement.COMMAND with e | u;
         rcases hw : bus.writeFn s.addr StartMeasurementNoParticulates.COMMAND
           with e | u] <;>
        simp [AsyncSen5x.start_measurement, AsyncSen5x.write_command, hw]
    · intro hok
      rcases p <;>
        [rcases hw : bus.writeFn s.addr StartMeasurement.COMMAND with e | u;
         rcases hw : bus.writeFn s.addr StartMeasurementNoParticulates.COMMAND
           with e | u] <;>
        simp [AsyncSen5x.start_measurement, AsyncSen5x.write_command, hw] at hok ⊢

/-- Witness for C10: with the driver already `Measuring`, a repeated
start succeeds, is not a `WrongMode` error, and records the requested
particulate variant; a completed `data_ready` result is not `WrongMode`
either. -/
theorem c10_unguarded_ops_witness :
    (AsyncSen5x.start_measurement busReadyTrue .Enabled sMeasuring).1 ≠
      .error (.WrongMode .Measuring) ∧
    ((.ok true : Except (Error Unit) Bool) ≠ .error (.WrongMode .Measuring)) ∧
    (AsyncSen5x.start_measurement busReadyTrue .Enabled sMeasuring).2.1 =
      { sMeasuring with mode := .Measuring, particulates := .Enabled } := by
  refine ⟨(c10_unguarded_ops Unit busReadyTrue sMeasuring .Enabled).1 .Measuring,
    ?_, ?_⟩
  · exact (c10_unguarded_ops Unit busReadyTrue sMeasuring .Enabled).2.1
      (.ok true, sMeasuring, [.write 0x69 [0x02, 0x02], .delayMs 20, .read 0x69 3])
      (by decide) .Measuring
  · exact ((c10_unguarded_ops Unit busReadyTrue sMeasuring .Enabled).2.2.2.2
      (by decide)).2 (by decide)

theorem goodGroups_length (pre : List (Nat × Nat)) :
    (goodGroups pre).length = 3 * pre.length := by
  induction pre with
  | nil => simp [goodGroups]
  | cons p pre ih => simp [goodGroups, goodGroup] at ih ⊢; omega

theorem collectData_length (pre : List (Nat × Nat)) :
    (collectData pre).length = 2 * pre.length := by
  induction pre with
  | nil => simp [collectData]
  | cons p pre ih => simp [collectData] at ih ⊢; omega

theorem chunks3_cons3 (a b c : Nat) (l : List Nat) :
    chunks3 (a :: b :: c :: l) = [a, b, c] :: chunks3 l := rfl

/-- Decoding one valid, ASCII, non-NUL group appends its two data bytes
and continues. -/
theorem decodeGroups_good_cons (a b : Nat) (chunks : List (List Nat))
    (acc : RawString) (ha0 : a ≠ 0) (ha : a < 128) (hb0 : b ≠ 0) (hb : b < 128)
    (hlen : acc.data.length + 2 ≤ 32) :
    RawString.decodeGroups ([a, b, crc8 [a, b]] :: chunks) acc =
      RawString.decodeGroups chunks ⟨acc.data ++ [a, b]⟩ := by
  have h1 : ¬ 32 ≤ acc.data.length := by omega
  have h2 : ¬ 32 ≤ acc.data.length + 1 := by omega
  simp [RawString.decodeGroups, RawString.push_char, ha, hb, ha0, hb0, h1, h2]

/-- A valid group whose first data byte is NUL terminates the decode
with the collected string, whatever the remaining chunks hold. -/
theorem decodeGroups_term_first (t : Nat) (chunks : List (List Nat))
    (acc : RawString) :
    RawString.decodeGroups ([0, t, crc8 [0, t]] :: chunks) acc =
      some (.ok acc) := by
  simp [RawString.decodeGroups, RawString.push_char]

/-- A valid group whose second data byte is NUL collects the first byte
and terminates, whatever the remaining chunks hold. -/
theorem decodeGroups_term_second (d : Nat) (chunks : List (List Nat))
    (acc : RawString) (hd0 : d ≠ 0) (hd : d < 128)
    (hlen : acc.data.length + 1 ≤ 32) :
    RawString.decodeGroups ([d, 0, crc8 [d, 0]] :: chunks) acc =
      some (.ok ⟨acc.data ++ [d]⟩) := by
  have h1 : ¬ 32 ≤ acc.data.length := by omega
  simp [RawString.decodeGroups, RawString.push_char, hd, hd0, h1]

/-- A group with a wrong checksum byte fails with the checksum error —
in particular the checksum of a terminating group is still validated. -/
theorem decodeGroups_badcrc (g0 g1 c : Nat) (chunks : List (List Nat))
    (acc : RawString) (hc : c ≠ crc8 [g0, g1]) :
    RawString.decodeGroups ([g0, g1, c] :: chunks) acc =
      some (.error .Crc) := by
  have h : crc8 [g0, g1] ≠ c := fun h => hc h.symm
  simp [RawString.decodeGroups, h]

/-- A non-ASCII first data byte fails with the malformed-message error. -/
theorem decodeGroups_nonascii_first (a b : Nat) (chunks : List (List Nat))
    (acc : RawString) (ha : ¬ a < 128) :
    RawString.decodeGroups ([a, b, crc8 [a, b]] :: chunks) acc =
      some (.error .Msg) := by
  simp [RawString.decodeGroups, RawString.push_char, ha]

/-- A non-ASCII second data byte fails with the malformed-message error. -/
theorem decodeGroups_nonascii_second (a b : Nat) (chunks : List (List Nat))
    (acc : RawString) (ha0 : a ≠ 0) (ha : a < 128) (hb : ¬ b < 128)
    (hlen : acc.data.length + 1 ≤ 32) :
    RawString.decodeGroups ([a, b, crc8 [a, b]] :: chunks) acc =
      some (.error .Msg) := by
  have h1 : ¬ 32 ≤ acc.data.length := by omega
  simp [RawString.decodeGroups, RawString.push_char, ha, ha0, hb, h1]

/-- Consuming a prefix of valid, ASCII, non-NUL groups collects exactly
their data bytes and continues with the remaining buffer. -/
theorem decodeGroups_goodGroups (pre : List (Nat × Nat)) (tail : List Nat)
    (acc : RawString)
    (hpre : ∀ p ∈ pre, 0 < p.1 ∧ p.1 < 128 ∧ 0 < p.2 ∧ p.2 < 128)
    (hlen : acc.data.length + 2 * pre.length ≤ 32) :
    RawString.decodeGroups (chunks3 (goodGroups pre ++ tail)) acc =
      RawString.decodeGroups (chunks3 tail) ⟨acc.data ++ collectData pre⟩ := by
  induction pre generalizing acc with
  | nil => simp [goodGroups, collectData]
  | cons p pre ih =>
    obtain ⟨hp1, hp1b, hp2, hp2b⟩ := hpre p (List.mem_cons_self p pre)
    have hstep : goodGroups (p :: pre) ++ tail =
        p.1 :: p.2 :: crc8 [p.1, p.2] :: (goodGroups pre ++ tail) := by
      simp [goodGroups, goodGroup]
    rw [hstep, chunks3_cons3,
      decodeGroups_good_cons p.1 p.2 _ acc (by omega) hp1b (by omega) hp2b
        (by simp at hlen; omega),
      ih ⟨acc.data ++ [p.1, p.2]⟩ (fun q hq => hpre q (List.mem_cons_of_mem p hq))
        (by simp at hlen ⊢; omega)]
    simp [collectData]

/-- C7 is refuted by the code, which contradicts the never-panic
contract: `RawString::decode` is not total on 47-byte buffers.
`noNulBuf47` has fifteen valid ASCII non-NUL checksum groups and no NUL
terminator, so the loop reaches the final 2-byte chunk of
`buf.chunks(3)` (47 = 15·3 + 2) and indexing `chunk[2]` is out of
bounds — the `none` outcome of the model. -/
theorem c7_decode_not_total :
    noNulBuf47.length = 47 ∧ RawString.decode noNulBuf47 = none :=
  ⟨by decide, by decide⟩

/-- C8: `RawString::decode` validates groups in order and collects
their data bytes; a NUL data byte (in either position) terminates
collection with the terminating group's checksum still validated and
everything after the terminating group ignored; a non-ASCII data byte
(in either position) before the terminator yields the malformed-message
error; and the concrete `"SEN55"` buffer decodes to the string
`"SEN55"`. -/
theorem c8_raw_string_semantics :
    (∀ (pre : List (Nat × Nat)) (t : Nat) (rest : List Nat),
      (∀ p ∈ pre, 0 < p.1 ∧ p.1 < 128 ∧ 0 < p.2 ∧ p.2 < 128) →
      (goodGroups pre ++ ([0, t, crc8 [0, t]] ++ rest)).length = 47 →
      RawString.decode (goodGroups pre ++ ([0, t, crc8 [0, t]] ++ rest)) =
        some (.ok ⟨collectData pre⟩)) ∧
    (∀ (pre : List (Nat × Nat)) (d : Nat) (rest : List Nat),
      (∀ p ∈ pre, 0 < p.1 ∧ p.1 < 128 ∧ 0 < p.2 ∧ p.2 < 128) →
      d ≠ 0 → d < 128 →
      (goodGroups pre ++ ([d, 0, crc8 [d, 0]] ++ rest)).length = 47 →
      RawString.decode (goodGroups pre ++ ([d, 0, crc8 [d, 0]] ++ rest)) =
        some (.ok ⟨collectData pre ++ [d]⟩)) ∧
    (∀ (pre : List (Nat × Nat)) (t c : Nat) (rest : List Nat),
      (∀ p ∈ pre, 0 < p.1 ∧ p.1 < 128 ∧ 0 < p.2 ∧ p.2 < 128) →
      c ≠ crc8 [0, t] →
      (goodGroups pre ++ ([0, t, c] ++ rest)).length = 47 →
      RawString.decode (goodGroups pre ++ ([0, t, c] ++ rest)) =
        some (.error .Crc)) ∧
    (∀ (pre : List (Nat × Nat)) (a b : Nat) (rest : List Nat),
      (∀ p ∈ pre, 0 < p.1 ∧ p.1 < 128 ∧ 0 < p.2 ∧ p.2 < 128) →
      ¬ a < 128 →
      (goodGroups pre ++ ([a, b, crc8 [a, b]] ++ rest)).length = 47 →
      RawString.decode (goodGroups pre ++ ([a, b, crc8 [a, b]] ++ rest)) =
        some (.error .Msg)) ∧
    (∀ (pre : List (Nat × Nat)) (a b : Nat) (rest : List Nat),
      (∀ p ∈ pre, 0 < p.1 ∧ p.1 < 128 ∧ 0 < p.2 ∧ p.2 < 128) →
      a ≠ 0 → a < 128 → ¬ b < 128 →
      (goodGroups pre ++ ([a, b, crc8 [a, b]] ++ rest)).length = 47 →
      RawString.decode (goodGroups pre ++ ([a, b, crc8 [a, b]] ++ rest)) =
        some (.error .Msg)) ∧
    RawString.decode sen55Buf = some (.ok ⟨[83, 69, 78, 53, 53]⟩) ∧
    RawString.as_str ⟨[83, 69, 78, 53, 53]⟩ = "SEN55" := by
  refine ⟨?_, ?_, ?_, ?_, ?_, by decide, by decide⟩
  · intro pre t rest hpre hbuf
    have h3 := goodGroups_length pre
    have hp : pre.length ≤ 14 := by simp at hbuf; omega
    unfold RawString.decode
    rw [decodeGroups_goodGroups pre ([0, t, crc8 [0, t]] ++ rest) ⟨[]⟩ hpre
      (by simp; omega)]
    rw [show ([0, t, crc8 [0, t]] ++ rest : List Nat) =
      0 :: t :: crc8 [0, t] :: rest from rfl, chunks3_cons3, decodeGroups_term_first]
    simp
  · intro pre d rest hpre hd0 hd hbuf
    have h3 := goodGroups_length pre
    have h2 := collectData_length pre
    have hp : pre.length ≤ 14 := by simp at hbuf; omega
    unfold RawString.decode
    rw [decodeGroups_goodGroups pre ([d, 0, crc8 [d, 0]] ++ rest) ⟨[]⟩ hpre
      (by simp; omega)]
    rw [show ([d, 0, crc8 [d, 0]] ++ rest : List Nat) =
      d :: 0 :: crc8 [d, 0] :: rest from rfl, chunks3_cons3,
      decodeGroups_term_second d _ _ hd0 hd (by simp [h2]; omega)]
    simp
  · intro pre t c rest hpre hc hbuf
    have h3 := goodGroups_length pre
    have hp : pre.length ≤ 14 := by simp at hbuf; omega
    unfold RawString.decode
    rw [decodeGroups_goodGroups pre ([0, t, c] ++ rest) ⟨[]⟩ hpre (by simp; omega)]
    rw [show ([0, t, c] ++ rest : List Nat) = 0 :: t :: c :: rest from rfl,
      chunks3_cons3, decodeGroups_badcrc 0 t c _ _ hc]
  · intro pre a b rest hpre ha hbuf
    have h3 := goodGroups_length pre
    have hp : pre.length ≤ 14 := by simp at hbuf; omega
    unfold RawString.decode
    rw [decodeGroups_goodGroups pre ([a, b, crc8 [a, b]] ++ rest) ⟨[]⟩ hpre
      (by simp; omega)]
    rw [show ([a, b, crc8 [a, b]] ++ rest : List Nat) =
      a :: b :: crc8 [a, b] :: rest from rfl, chunks3_cons3,
      decodeGroups_nonascii_first a b _ _ ha]
  · intro pre a b rest hpre ha0 ha hb hbuf
    have h3 := goodGroups_length pre
    have h2 := collectData_length pre
    have hp : pre.length ≤ 14 := by simp at hbuf; omega
    unfold RawString.decode
    rw [decodeGroups_goodGroups pre ([a, b, crc8 [a, b]] ++ rest) ⟨[]⟩ hpre
      (by simp; omega)]
    rw [show ([a, b, crc8 [a, b]] ++ rest : List Nat) =
      a :: b :: crc8 [a, b] :: rest from rfl, chunks3_cons3,
      decodeGroups_nonascii_second a b _ _ ha0 ha hb (by simp [h2]; omega)]

/-- Witness for C8: the `"SEN55"` buffer, seen as two collected groups
plus the terminating group `['5', NUL, crc]` and 38 filler bytes. -/
theorem c8_raw_string_semantics_witness :
    RawString.decode (goodGroups [(83, 69), (78, 53)] ++
        ([53, 0, crc8 [53, 0]] ++ List.replicate 38 0)) =
      some (.ok ⟨collectData [(83, 69), (78, 53)] ++ [53]⟩) :=
  c8_raw_string_semantics.2.1 [(83, 69), (78, 53)] 53 (List.replicate 38 0)
    (by decide) (by decide) (by decide) (by decide)
